import Mathlib

/-!
Verification of the YoutubeDownloader job-orchestration server.

Shallow embedding of:
  - `src/shared/schema.ts`   : the `downloads` row type and `downloadRequestSchema`;
  - `src/server/storage.ts`  : `MemStorage` (createDownload / getDownload / updateDownload);
  - `src/unnamed/part_000`   : the Express routes (`POST /api/downloads`,
    `GET /api/downloads/:id`, `GET /api/downloads/:id/zip`) and the
    `processDownload` pipeline (status updates, progress broadcasts, zip
    serving with delayed deletion).

JavaScript `Map` is modelled as an association list preserving insertion
order; JavaScript numbers that the program only ever uses as non-negative
integers (ids, byte counts, progress percentages, millisecond times) are
modelled as `Nat`.  Timestamps (`new Date()`) are threaded as an explicit
`now : Nat` parameter.
-/

/-- A row of the `downloads` table (`src/shared/schema.ts`, `downloads`).
Nullable text columns are `Option String`. -/
structure Download where
  id : Nat
  url : String
  format : String
  quality : String
  status : String
  progress : Nat
  fileName : Option String
  fileSize : Option String
  zipPath : Option String
  errorMessage : Option String
  createdAt : Nat
  deriving Repr, DecidableEq

/-- The insert shape picked by `insertDownloadSchema` (url, format, quality). -/
structure InsertDownload where
  url : String
  format : String
  quality : String
  deriving Repr, DecidableEq

/-- A `Partial<Download>` as passed to `MemStorage.updateDownload`: each field
is either absent (`none`) or present with a value.  For nullable columns a
present value is itself an `Option String`. -/
structure DownloadUpdate where
  id : Option Nat := none
  url : Option String := none
  format : Option String := none
  quality : Option String := none
  status : Option String := none
  progress : Option Nat := none
  fileName : Option (Option String) := none
  fileSize : Option (Option String) := none
  zipPath : Option (Option String) := none
  errorMessage : Option (Option String) := none
  createdAt : Option Nat := none
  deriving Repr, DecidableEq

/-- The object spread `{ ...download, ...updates }` in
`MemStorage.updateDownload` (`src/server/storage.ts:70`): a field present in
`updates` overrides, every other field keeps the stored value. -/
def applyUpdate (d : Download) (u : DownloadUpdate) : Download :=
  { id := u.id.getD d.id
    url := u.url.getD d.url
    format := u.format.getD d.format
    quality := u.quality.getD d.quality
    status := u.status.getD d.status
    progress := u.progress.getD d.progress
    fileName := u.fileName.getD d.fileName
    fileSize := u.fileSize.getD d.fileSize
    zipPath := u.zipPath.getD d.zipPath
    errorMessage := u.errorMessage.getD d.errorMessage
    createdAt := u.createdAt.getD d.createdAt }

/-- JavaScript `Map.set`: replace in place when the key exists, append at the
end otherwise (insertion order is preserved, as in a JS `Map`). -/
def mapSet (m : List (Nat × Download)) (k : Nat) (v : Download) : List (Nat × Download) :=
  match m with
  | [] => [(k, v)]
  | (k', v') :: rest => if k' = k then (k, v) :: rest else (k', v') :: mapSet rest k v

/-- JavaScript `Map.get`, returning `undefined` as `none`. -/
def mapGet (m : List (Nat × Download)) (k : Nat) : Option Download :=
  match m with
  | [] => none
  | (k', v') :: rest => if k' = k then some v' else mapGet rest k

/-- The download-relevant state of `MemStorage` (`src/server/storage.ts`):
the `downloads` map and the `currentDownloadId` counter (initially 1).
The unrelated `users` map is omitted. -/
structure MemStorage where
  downloads : List (Nat × Download)
  currentDownloadId : Nat
  deriving Repr, DecidableEq

/-- The `MemStorage` constructor: empty map, counter 1. -/
def MemStorage.init : MemStorage :=
  { downloads := [], currentDownloadId := 1 }

/-- `MemStorage.createDownload` (`src/server/storage.ts:45-60`): take the
current counter as id, post-increment it, and store a record with
status "pending", progress 0, all nullable fields null and `createdAt`
set to the current time. -/
def createDownload (s : MemStorage) (ins : InsertDownload) (now : Nat) :
    Download × MemStorage :=
  let id := s.currentDownloadId
  let d : Download :=
    { id := id
      url := ins.url
      format := ins.format
      quality := ins.quality
      status := "pending"
      progress := 0
      fileName := none
      fileSize := none
      zipPath := none
      errorMessage := none
      createdAt := now }
  (d, { downloads := mapSet s.downloads id d, currentDownloadId := id + 1 })

/-- `MemStorage.getDownload` (`src/server/storage.ts:62-64`). -/
def getDownload (s : MemStorage) (id : Nat) : Option Download :=
  mapGet s.downloads id

/-- `MemStorage.updateDownload` (`src/server/storage.ts:66-73`): `undefined`
and an unchanged store when the id is absent, otherwise the spread-merged
record is stored back and returned. -/
def updateDownload (s : MemStorage) (id : Nat) (u : DownloadUpdate) :
    Option Download × MemStorage :=
  match mapGet s.downloads id with
  | none => (none, s)
  | some d =>
    let d' := applyUpdate d u
    (some d', { s with downloads := mapSet s.downloads id d' })

/-- JavaScript regex `\w` (ASCII word character) extended with `-`, i.e. the
character class `[\w-]` used in all three URL patterns of
`downloadRequestSchema` (`src/shared/schema.ts:38-42`). -/
def isWordOrDash (c : Char) : Bool :=
  c.isAlpha || c.isDigit || c == '_' || c == '-'

/-- Consume the literal `pat` from the front of `cs`, returning the remainder
on success (the source patterns contain no metacharacters beyond the
alternations expanded below and the trailing `[\w-]+`, so their literal
part is an exact character-by-character match). -/
def dropLit : List Char → List Char → Option (List Char)
  | cs, [] => some cs
  | [], _ :: _ => none
  | c :: cs, p :: ps => if c = p then dropLit cs ps else none

/-- Test whether `url` starts with the literal `pre` followed by at least one
`[\w-]` character.  The source regexes are anchored at the start (`^`) and
open at the end, so `RegExp.test` succeeds exactly when such a prefix
exists. -/
def startsWithThenWord (url pre : String) : Bool :=
  match dropLit url.toList pre.toList with
  | some (c :: _) => isWordOrDash c
  | _ => false

/-- The `watch` pattern `^https?:\/\/(www\.)?youtube\.com\/watch\?v=[\w-]+`,
with the `s?` and `(www\.)?` alternatives expanded into four literal
prefixes. -/
def matchesWatchPattern (url : String) : Bool :=
  startsWithThenWord url "http://www.youtube.com/watch?v=" ||
  startsWithThenWord url "https://www.youtube.com/watch?v=" ||
  startsWithThenWord url "http://youtube.com/watch?v=" ||
  startsWithThenWord url "https://youtube.com/watch?v="

/-- The short-link pattern `^https?:\/\/youtu\.be\/[\w-]+`. -/
def matchesShortPattern (url : String) : Bool :=
  startsWithThenWord url "http://youtu.be/" ||
  startsWithThenWord url "https://youtu.be/"

/-- The embed pattern `^https?:\/\/(www\.)?youtube\.com\/embed\/[\w-]+`. -/
def matchesEmbedPattern (url : String) : Bool :=
  startsWithThenWord url "http://www.youtube.com/embed/" ||
  startsWithThenWord url "https://www.youtube.com/embed/" ||
  startsWithThenWord url "http://youtube.com/embed/" ||
  startsWithThenWord url "https://youtube.com/embed/"

/-- The `.refine` predicate of `downloadRequestSchema.url`
(`src/shared/schema.ts:37-44`): `patterns.some(p => p.test(url))`.
The preceding `z.string().url()` check is subsumed: every string accepted
by one of these anchored `http(s)://exact-host/...` patterns parses as a
WHATWG URL, so the refine predicate alone decides acceptance. -/
def isValidYoutubeUrl (url : String) : Bool :=
  matchesWatchPattern url || matchesShortPattern url || matchesEmbedPattern url

/-- The `format` enum of `downloadRequestSchema` (`src/shared/schema.ts:45`). -/
def isValidFormat (f : String) : Bool :=
  f == "mp4" || f == "mp3" || f == "webm"

/-- The `quality` enum of `downloadRequestSchema` (`src/shared/schema.ts:46`). -/
def isValidQuality (q : String) : Bool :=
  q == "1080p" || q == "720p" || q == "480p" || q == "360p" || q == "best"

/-- A request body for `POST /api/downloads` whose three fields are present
as strings (bodies with missing or non-string fields are rejected by zod
before any of the checks below and are not modelled). -/
structure DownloadRequest where
  url : String
  format : String
  quality : String
  deriving Repr, DecidableEq

/-- `downloadRequestSchema.parse` succeeds iff the URL matches one of the
three patterns and format and quality are in their enums. -/
def parseSucceeds (b : DownloadRequest) : Bool :=
  isValidYoutubeUrl b.url && isValidFormat b.format && isValidQuality b.quality

/-- Response of `POST /api/downloads` (`src/unnamed/part_000:37-51`). -/
inductive PostResponse where
  /-- `res.json({ downloadId: download.id, status: "started" })` -/
  | started (downloadId : Nat) (status : String)
  /-- `res.status(400).json({ error })` -/
  | badRequest (error : String)
  deriving Repr, DecidableEq

/-- The `POST /api/downloads` handler (`src/unnamed/part_000:37-51`):
parse the body; on failure respond 400 without touching the store; on
success create the record, kick off `processDownload` asynchronously
(modelled separately), and respond with the new id and status "started". -/
def postDownloads (s : MemStorage) (body : DownloadRequest) (now : Nat) :
    PostResponse × MemStorage :=
  if parseSucceeds body then
    let (d, s') := createDownload s ⟨body.url, body.format, body.quality⟩ now
    (.started d.id "started", s')
  else
    (.badRequest "Must be a valid YouTube URL", s)

/-- Response of `GET /api/downloads/:id` (`src/unnamed/part_000:54-67`). -/
inductive GetResponse where
  /-- `res.json(download)` -/
  | ok (d : Download)
  /-- `res.status(404).json({ error: "Download not found" })` -/
  | notFound (error : String)
  deriving Repr, DecidableEq

/-- The `GET /api/downloads/:id` handler (`src/unnamed/part_000:54-67`). -/
def getDownloadRoute (s : MemStorage) (id : Nat) : GetResponse :=
  match getDownload s id with
  | none => .notFound "Download not found"
  | some d => .ok d

/-- JavaScript truthiness of a nullable string: `null` and `""` are falsy. -/
def falsyStr : Option String → Bool
  | none => true
  | some s => s.isEmpty

/-- JavaScript `a || b` on a nullable string: keep `a` unless falsy. -/
def orElseStr (a : Option String) (b : String) : String :=
  match a with
  | some s => if s.isEmpty then b else s
  | none => b

/-- Response of `GET /api/downloads/:id/zip` (`src/unnamed/part_000:70-102`). -/
inductive ZipResponse where
  /-- file bytes streamed from `zipPath` with attachment header `fileName` -/
  | stream (zipPath : String) (attachmentName : String)
  /-- `res.status(404).json({ error: "Download not ready" })` -/
  | notReady (error : String)
  /-- `res.status(404).json({ error: "File not found" })` -/
  | fileMissing (error : String)
  deriving Repr, DecidableEq

/-- The `GET /api/downloads/:id/zip` handler (`src/unnamed/part_000:70-102`)
up to the streaming decision, with the filesystem abstracted as the
predicate `fsExists` (for `fs.existsSync`).  The cleanup timer on stream
end is modelled separately in the temporal model below. -/
def getZipRoute (s : MemStorage) (fsExists : String → Bool) (id : Nat) : ZipResponse :=
  match getDownload s id with
  | none => .notReady "Download not ready"
  | some d =>
    if d.status ≠ "completed" ∨ falsyStr d.zipPath then .notReady "Download not ready"
    else
      match d.zipPath with
      | none => .notReady "Download not ready"
      | some zp =>
        if fsExists zp then
          .stream zp (orElseStr d.fileName "download.zip" ++ ".zip")
        else
          .fileMissing "File not found"

/-- JavaScript `Math.round (num / den)` for non-negative operands:
round half up, i.e. `⌊num/den + 1/2⌋ = ⌊(2*num + den) / (2*den)⌋`. -/
def jsRound (num den : Nat) : Nat :=
  (2 * num + den) / (2 * den)

/-- The progress formula of the ytdl `progress` handler
(`src/unnamed/part_000:164`): `Math.round((downloaded / total) * 80)`,
reserving 20% of the bar for ZIP creation. -/
def downloadProgress (downloaded total : Nat) : Nat :=
  jsRound (downloaded * 80) total

/-- One frame pushed by `broadcastProgress` (`src/unnamed/part_000:246-259`):
the payload spread into `{ downloadId, ... }`.  `progress` and `error` are
absent in some frames. -/
structure Frame where
  status : String
  progress : Option Nat := none
  error : Option String := none
  deriving Repr, DecidableEq

/-- One `(downloaded, total)` pair delivered by a ytdl `progress` event
(`src/unnamed/part_000:162`). -/
structure ProgressEvent where
  downloaded : Nat
  total : Nat
  deriving Repr, DecidableEq

/-- How one run of `processDownload` resolves.  The branch structure follows
`src/unnamed/part_000:108-223`:
  - `notFound`: `getDownload` returned undefined, the function returns at once;
  - `infoFailure`: `ytdl.getInfo`, `chooseFormat` or the no-format throw fails
    inside the outer try, caught at line 215;
  - `writeFailure`: the write stream errors after some progress events
    (handler at line 207);
  - `zipFailure`: zip creation or `statSync` fails inside the finish handler,
    before the completed update (catch at line 198);
  - `cleanupFailure`: the finish handler's try block extends past the
    completed update, over the completed broadcast (line 193) and
    `fs.rmSync` (line 196, which still throws on errors such as EACCES —
    `force: true` only suppresses nonexistence); a throw there reaches the
    same catch at line 198 AFTER the record was stored as completed, and the
    catch then failed-marks it;
  - `success`: the finish handler completes; it carries the sanitized video
    title, the formatted zip size string and the zip path (the latter two
    computed from the filesystem and `process.cwd()`, threaded as data). -/
inductive RunOutcome where
  | notFound
  | infoFailure (msg : String)
  | writeFailure (events : List ProgressEvent) (msg : String)
  | zipFailure (events : List ProgressEvent) (msg : String)
  | cleanupFailure (events : List ProgressEvent) (title : String) (sizeStr : String)
      (zipPath : String) (msg : String)
  | success (events : List ProgressEvent) (title : String) (sizeStr : String) (zipPath : String)
  deriving Repr, DecidableEq

/-- The update of `src/unnamed/part_000:113`:
`updateDownload(id, { status: "downloading" })`. -/
def downloadingUpdate : DownloadUpdate :=
  { status := some "downloading" }

/-- The update of `src/unnamed/part_000:185-191`: status completed,
progress 100, fileName, fileSize and zipPath filled in. -/
def completedUpdate (title sizeStr zipPath : String) : DownloadUpdate :=
  { status := some "completed"
    progress := some 100
    fileName := some (some title)
    fileSize := some (some sizeStr)
    zipPath := some (some zipPath) }

/-- The update of the failure handlers (`src/unnamed/part_000:199-202`,
`207-213`, `217-220`): status failed plus the error message. -/
def failedUpdate (msg : String) : DownloadUpdate :=
  { status := some "failed", errorMessage := some (some msg) }

/-- The sequence of `storage.updateDownload` payloads issued by one run of
`processDownload`, in program order. -/
def processUpdates : RunOutcome → List DownloadUpdate
  | .notFound => []
  | .infoFailure msg => [downloadingUpdate, failedUpdate msg]
  | .writeFailure _ msg => [downloadingUpdate, failedUpdate msg]
  | .zipFailure _ msg => [downloadingUpdate, failedUpdate msg]
  | .cleanupFailure _ title sizeStr zipPath msg =>
      [downloadingUpdate, completedUpdate title sizeStr zipPath, failedUpdate msg]
  | .success _ title sizeStr zipPath =>
      [downloadingUpdate, completedUpdate title sizeStr zipPath]

/-- The successive stored states of the job record: the freshly created
record followed by the result of each `updateDownload` payload in turn
(each applied with the spread semantics of `applyUpdate`). -/
def recordTrace (d : Download) : List DownloadUpdate → List Download
  | [] => [d]
  | u :: rest => d :: recordTrace (applyUpdate d u) rest

/-- The stored status sequence of a job across one run of `processDownload`,
starting from the created record. -/
def storedStatusTrace (d : Download) (o : RunOutcome) : List String :=
  (recordTrace d (processUpdates o)).map Download.status

/-- The stored progress sequence of a job across one run. -/
def storedProgressTrace (d : Download) (o : RunOutcome) : List Nat :=
  (recordTrace d (processUpdates o)).map Download.progress

/-- The frame broadcast for one ytdl progress event
(`src/unnamed/part_000:162-166`). -/
def progressFrame (e : ProgressEvent) : Frame :=
  { status := "downloading", progress := some (downloadProgress e.downloaded e.total) }

/-- The frame broadcast by every failure handler:
`{ status: "failed", error }` (no progress field). -/
def failedFrame (msg : String) : Frame :=
  { status := "failed", error := some msg }

/-- The sequence of `broadcastProgress` payloads issued by one run of
`processDownload`, in program order (`src/unnamed/part_000:114`, `165`,
`176`, `193`, `203`, `212`, `221`). -/
def broadcastTrace : RunOutcome → List Frame
  | .notFound => []
  | .infoFailure msg =>
      [{ status := "downloading", progress := some 0 }, failedFrame msg]
  | .writeFailure events msg =>
      { status := "downloading", progress := some 0 } ::
        events.map progressFrame ++ [failedFrame msg]
  | .zipFailure events msg =>
      { status := "downloading", progress := some 0 } ::
        events.map progressFrame ++
        [{ status := "creating_zip", progress := some 90 }, failedFrame msg]
  | .cleanupFailure events _ _ _ msg =>
      { status := "downloading", progress := some 0 } ::
        events.map progressFrame ++
        [{ status := "creating_zip", progress := some 90 },
         { status := "completed", progress := some 100 },
         failedFrame msg]
  | .success events _ _ _ =>
      { status := "downloading", progress := some 0 } ::
        events.map progressFrame ++
        [{ status := "creating_zip", progress := some 90 },
         { status := "completed", progress := some 100 }]

/-- Rank of a status along the pipeline order
pending → downloading → creating_zip → completed. -/
def statusRank : String → Nat
  | "pending" => 0
  | "downloading" => 1
  | "creating_zip" => 2
  | "completed" => 3
  | _ => 0

/-- One admissible status transition: either a forward (non-regressing) move
along the pipeline order between non-failed statuses, or a jump to "failed"
from any non-failed status — including "completed", reached when the finish
handler's cleanup throws after the completed update.  "failed" itself is
terminal: no transition leaves it. -/
def statusAdvances (a b : String) : Bool :=
  if b == "failed" then a != "failed"
  else a != "failed" && statusRank a ≤ statusRank b

/-- The cleanup delay of `src/unnamed/part_000:92-96`: `setTimeout(..., 5000)`
after the read stream ends. -/
def deletionDelayMs : Nat := 5000

/-- Timer/filesystem state for one job's archive file: whether the zip file
is currently on disk, and the times (ms) at which scheduled cleanup
callbacks will fire. -/
structure ZipServeState where
  fileOnDisk : Bool
  deletions : List Nat
  deriving Repr, DecidableEq

/-- Fire every cleanup timer scheduled at or before time `t`: each callback
checks `fs.existsSync` and unlinks the file (`src/unnamed/part_000:93-95`),
so the file is gone afterwards iff some timer was due. -/
def fireTimers (st : ZipServeState) (t : Nat) : ZipServeState :=
  { fileOnDisk := st.fileOnDisk && st.deletions.all (fun d => t < d)
    deletions := st.deletions.filter (fun d => t < d) }

/-- One request to `GET /api/downloads/:id/zip` arriving at time `t` (ms).
Timers due by `t` have fired first.  When the route streams the file, the
stream ends at `t` (the read is modelled as instantaneous) and the `end`
handler schedules deletion at `t + 5000` (`src/unnamed/part_000:91-97`). -/
def serveZipAt (s : MemStorage) (id : Nat) (st : ZipServeState) (t : Nat) :
    ZipResponse × ZipServeState :=
  let st' := fireTimers st t
  match getZipRoute s (fun _ => st'.fileOnDisk) id with
  | .stream zp fn =>
      (.stream zp fn, { st' with deletions := st'.deletions ++ [t + deletionDelayMs] })
  | r => (r, st')

/-- Serve a sequence of requests for job `id` at increasing times, returning
the responses in order. -/
def serveZipRequests (s : MemStorage) (id : Nat) (st : ZipServeState) :
    List Nat → List ZipResponse
  | [] => []
  | t :: rest =>
      let (r, st') := serveZipAt s id st t
      r :: serveZipRequests s id st' rest

/-- Whether a `ZipResponse` streams file bytes. -/
def ZipResponse.streams : ZipResponse → Bool
  | .stream _ _ => true
  | _ => false

/-! ### Helper lemmas about the storage map and the progress formula -/

theorem mapGet_mapSet_self (m : List (Nat × Download)) (k : Nat) (v : Download) :
    mapGet (mapSet m k v) k = some v := by
  induction m with
  | nil => simp [mapSet, mapGet]
  | cons p rest ih =>
    by_cases h : p.1 = k
    · simp [mapSet, mapGet, h]
    · simp [mapSet, mapGet, h, ih]

theorem mapGet_mapSet_ne (m : List (Nat × Download)) (k k' : Nat) (v : Download)
    (h : k' ≠ k) : mapGet (mapSet m k v) k' = mapGet m k' := by
  induction m with
  | nil => simp [mapSet, mapGet, Ne.symm h]
  | cons p rest ih =>
    obtain ⟨a, w⟩ := p
    by_cases hp : a = k
    · subst hp
      simp [mapSet, mapGet, Ne.symm h]
    · simp only [mapSet, hp, if_false]
      by_cases hp' : a = k'
      · simp [mapGet, hp']
      · simp [mapGet, hp', ih]

theorem mapGet_eq_none_of_lt (m : List (Nat × Download)) (k : Nat)
    (h : ∀ p ∈ m, p.1 < k) : mapGet m k = none := by
  induction m with
  | nil => rfl
  | cons p rest ih =>
    have hp : p.1 < k := h p (by simp)
    have : p.1 ≠ k := Nat.ne_of_lt hp
    simp [mapGet, this]
    exact ih (fun q hq => h q (by simp [hq]))

theorem mem_mapSet (m : List (Nat × Download)) (k : Nat) (v : Download)
    (p : Nat × Download) (h : p ∈ mapSet m k v) : p = (k, v) ∨ p ∈ m := by
  induction m with
  | nil => simpa [mapSet] using h
  | cons q rest ih =>
    by_cases hq : q.1 = k
    · simp [mapSet, hq] at h
      rcases h with h | h
      · exact Or.inl (by simp [h])
      · exact Or.inr (by simp [h])
    · simp [mapSet, hq] at h
      rcases h with h | h
      · exact Or.inr (by simp [h])
      · rcases ih h with h' | h'
        · exact Or.inl h'
        · exact Or.inr (by simp [h'])

theorem downloadProgress_le_80 (d t : Nat) (hd : d ≤ t) (ht : 0 < t) :
    downloadProgress d t ≤ 80 := by
  unfold downloadProgress jsRound
  have h2t : 0 < 2 * t := by omega
  have hlt : 2 * (d * 80) + t < 81 * (2 * t) := by omega
  exact Nat.lt_succ_iff.mp ((Nat.div_lt_iff_lt_mul h2t).mpr hlt)

theorem downloadProgress_mono (d₁ d₂ t : Nat) (h : d₁ ≤ d₂) :
    downloadProgress d₁ t ≤ downloadProgress d₂ t := by
  unfold downloadProgress jsRound
  exact Nat.div_le_div_right (by omega)

/-! ### Concrete fixtures used by witnesses and counterexamples -/

/-- A store holding exactly one freshly created (pending) job, id 1. -/
def pendingStore : MemStorage :=
  (createDownload MemStorage.init ⟨"https://youtu.be/abc", "mp3", "best"⟩ 0).2

/-- A completed job record with a recorded zip path. -/
def completedZip : Download :=
  { id := 1, url := "https://youtu.be/abc", format := "mp3", quality := "best",
    status := "completed", progress := 100, fileName := some "video",
    fileSize := some "1 MB", zipPath := some "downloads/video_1.zip",
    errorMessage := none, createdAt := 0 }

/-- A store holding exactly the completed job above, id 1. -/
def completedStore : MemStorage :=
  { downloads := [(1, completedZip)], currentDownloadId := 2 }

/-- The completed job with no recorded zip path. -/
def completedNoZipStore : MemStorage :=
  { downloads := [(1, { completedZip with zipPath := none })], currentDownloadId := 2 }

/-! ### Claim theorems -/

/-- C2: A submission whose body fails validation (URL not matching one of the
three fixed YouTube URL patterns, or format outside mp4/mp3/webm, or quality
outside 1080p/720p/480p/360p/best) gets a 400 validation error and creates
no job record (the store is unchanged); a submission that passes validation
creates a job and the response carries its id and status "started". -/
theorem C2_submit_validation (s : MemStorage) (body : DownloadRequest) (now : Nat) :
    (parseSucceeds body = false →
      postDownloads s body now = (.badRequest "Must be a valid YouTube URL", s)) ∧
    (parseSucceeds body = true →
      ∃ d : Download,
        (postDownloads s body now).1 = .started d.id "started" ∧
        getDownload (postDownloads s body now).2 d.id = some d) := by
  constructor
  · intro h
    simp [postDownloads, h]
  · intro h
    refine ⟨(createDownload s ⟨body.url, body.format, body.quality⟩ now).1, ?_, ?_⟩
    · simp [postDownloads, h]
    · simp [postDownloads, h, createDownload, getDownload, mapGet_mapSet_self]

/-- Witness for C2 at a rejected and at an accepted concrete body. -/
theorem C2_submit_validation_witness :
    postDownloads MemStorage.init ⟨"https://evil.com/watch?v=abc", "mp4", "best"⟩ 0 =
      (.badRequest "Must be a valid YouTube URL", MemStorage.init) ∧
    ∃ d : Download,
      (postDownloads MemStorage.init ⟨"https://youtu.be/abc", "mp4", "best"⟩ 0).1 =
        .started d.id "started" ∧
      getDownload (postDownloads MemStorage.init ⟨"https://youtu.be/abc", "mp4", "best"⟩ 0).2
        d.id = some d :=
  ⟨(C2_submit_validation MemStorage.init ⟨"https://evil.com/watch?v=abc", "mp4", "best"⟩ 0).1
      (by decide),
   (C2_submit_validation MemStorage.init ⟨"https://youtu.be/abc", "mp4", "best"⟩ 0).2
      (by decide)⟩

/-- C5: The record created by a valid submission is initialized with status
"pending", progress 0, null fileName/fileSize/zipPath/errorMessage, the
submitted url, format and quality, and the creation time. -/
theorem C5_created_record_initialized (s : MemStorage) (body : DownloadRequest) (now : Nat)
    (h : parseSucceeds body = true) :
    getDownload (postDownloads s body now).2 s.currentDownloadId =
      some { id := s.currentDownloadId, url := body.url, format := body.format,
             quality := body.quality, status := "pending", progress := 0,
             fileName := none, fileSize := none, zipPath := none,
             errorMessage := none, createdAt := now } := by
  simp [postDownloads, h, createDownload, getDownload, mapGet_mapSet_self]

/-- Witness for C5 at a concrete valid submission. -/
theorem C5_created_record_initialized_witness :
    getDownload
      (postDownloads MemStorage.init
        ⟨"https://www.youtube.com/watch?v=abc123", "mp3", "best"⟩ 42).2 1 =
      some { id := 1, url := "https://www.youtube.com/watch?v=abc123", format := "mp3",
             quality := "best", status := "pending", progress := 0, fileName := none,
             fileSize := none, zipPath := none, errorMessage := none, createdAt := 42 } :=
  C5_created_record_initialized MemStorage.init
    ⟨"https://www.youtube.com/watch?v=abc123", "mp3", "best"⟩ 42 (by decide)

/-- C9: The status endpoint returns the job record when the id is in the
store and a 404 "Download not found" otherwise. -/
theorem C9_get_status_route (s : MemStorage) (id : Nat) :
    (∀ d, getDownload s id = some d → getDownloadRoute s id = .ok d) ∧
    (getDownload s id = none → getDownloadRoute s id = .notFound "Download not found") := by
  constructor
  · intro d h
    simp [getDownloadRoute, h]
  · intro h
    simp [getDownloadRoute, h]

/-- Witness for C9: an existing and a missing id on a one-job store. -/
theorem C9_get_status_route_witness :
    getDownloadRoute pendingStore 1 =
      .ok (createDownload MemStorage.init ⟨"https://youtu.be/abc", "mp3", "best"⟩ 0).1 ∧
    getDownloadRoute pendingStore 2 = .notFound "Download not found" :=
  ⟨(C9_get_status_route pendingStore 1).1
      (createDownload MemStorage.init ⟨"https://youtu.be/abc", "mp3", "best"⟩ 0).1 (by decide),
   (C9_get_status_route pendingStore 2).2 (by decide)⟩

/-- C4: Requesting the zip of a job that does not exist, is not completed, or
has no recorded zip path yields the 404 "Download not ready" response, which
streams no file bytes. -/
theorem C4_zip_404_before_completion (s : MemStorage) (fsE : String → Bool) (id : Nat) :
    (getDownload s id = none → getZipRoute s fsE id = .notReady "Download not ready") ∧
    (∀ d, getDownload s id = some d → d.status ≠ "completed" →
      getZipRoute s fsE id = .notReady "Download not ready") ∧
    (∀ d, getDownload s id = some d → d.zipPath = none →
      getZipRoute s fsE id = .notReady "Download not ready") ∧
    (∀ e, (ZipResponse.notReady e).streams = false) := by
  refine ⟨?_, ?_, ?_, fun e => rfl⟩
  · intro h
    simp [getZipRoute, h]
  · intro d h hs
    simp only [getZipRoute, h]
    rw [if_pos (Or.inl hs)]
  · intro d h hz
    simp only [getZipRoute, h]
    rw [if_pos (Or.inr (by simp [hz, falsyStr]))]

/-- Witness for C4: missing job, pending job, and completed job without a
zip path, each answered by the 404 "Download not ready". -/
theorem C4_zip_404_before_completion_witness :
    getZipRoute MemStorage.init (fun _ => true) 1 = .notReady "Download not ready" ∧
    getZipRoute pendingStore (fun _ => true) 1 = .notReady "Download not ready" ∧
    getZipRoute completedNoZipStore (fun _ => true) 1 = .notReady "Download not ready" :=
  ⟨(C4_zip_404_before_completion MemStorage.init (fun _ => true) 1).1 (by decide),
   (C4_zip_404_before_completion pendingStore (fun _ => true) 1).2.1
      (createDownload MemStorage.init ⟨"https://youtu.be/abc", "mp3", "best"⟩ 0).1
      (by decide) (by decide),
   (C4_zip_404_before_completion completedNoZipStore (fun _ => true) 1).2.2.1
      { completedZip with zipPath := none } (by decide) (by decide)⟩

/-- C10: Updating a missing id returns undefined and leaves the store
untouched; updating an existing job stores the spread-merged record, leaves
every other id's record unchanged, and every field absent from the update
keeps its previous value. -/
theorem C10_update_semantics (s : MemStorage) (id : Nat) (u : DownloadUpdate) :
    (getDownload s id = none → updateDownload s id u = (none, s)) ∧
    (∀ d, getDownload s id = some d →
      (updateDownload s id u).1 = some (applyUpdate d u) ∧
      getDownload (updateDownload s id u).2 id = some (applyUpdate d u) ∧
      (∀ k, k ≠ id → getDownload (updateDownload s id u).2 k = getDownload s k) ∧
      (u.id = none → (applyUpdate d u).id = d.id) ∧
      (u.url = none → (applyUpdate d u).url = d.url) ∧
      (u.format = none → (applyUpdate d u).format = d.format) ∧
      (u.quality = none → (applyUpdate d u).quality = d.quality) ∧
      (u.createdAt = none → (applyUpdate d u).createdAt = d.createdAt) ∧
      (u.status = none → (applyUpdate d u).status = d.status) ∧
      (u.progress = none → (applyUpdate d u).progress = d.progress) ∧
      (u.fileName = none → (applyUpdate d u).fileName = d.fileName) ∧
      (u.fileSize = none → (applyUpdate d u).fileSize = d.fileSize) ∧
      (u.zipPath = none → (applyUpdate d u).zipPath = d.zipPath) ∧
      (u.errorMessage = none → (applyUpdate d u).errorMessage = d.errorMessage)) := by
  constructor
  · intro h
    simp only [getDownload] at h
    simp [updateDownload, h]
  · intro d h
    simp only [getDownload] at h
    refine ⟨by simp [updateDownload, h], ?_, ?_, ?_, ?_, ?_, ?_, ?_, ?_, ?_, ?_, ?_, ?_, ?_⟩
    · simp [updateDownload, h, getDownload, mapGet_mapSet_self]
    · intro k hk
      simp [updateDownload, h, getDownload, mapGet_mapSet_ne _ _ _ _ hk]
    all_goals intro hf
    all_goals simp [applyUpdate, hf]

/-- Witness for C10: a missing id (5) and an existing id (1) with the
status-only update used by the pipeline. -/
theorem C10_update_semantics_witness :
    updateDownload pendingStore 5 downloadingUpdate = (none, pendingStore) ∧
    (updateDownload pendingStore 1 downloadingUpdate).1 =
      some (applyUpdate
        (createDownload MemStorage.init ⟨"https://youtu.be/abc", "mp3", "best"⟩ 0).1
        downloadingUpdate) :=
  ⟨(C10_update_semantics pendingStore 5 downloadingUpdate).1 (by decide),
   ((C10_update_semantics pendingStore 1 downloadingUpdate).2
      (createDownload MemStorage.init ⟨"https://youtu.be/abc", "mp3", "best"⟩ 0).1
      (by decide)).1⟩

/-- All stored ids lie below the id counter: the invariant maintained by
`MemStorage` (the constructor starts the counter at 1 over an empty map). -/
def idsBounded (s : MemStorage) : Prop :=
  ∀ p ∈ s.downloads, p.1 < s.currentDownloadId

/-- C8: On any store satisfying the counter invariant, two successive creates
get strictly increasing ids, the first new id is not already present in the
store (so ids are never shared), and the invariant is preserved. -/
theorem C8_ids_unique_monotone (s : MemStorage) (a b : InsertDownload) (n₁ n₂ : Nat)
    (h : idsBounded s) :
    (createDownload s a n₁).1.id < (createDownload (createDownload s a n₁).2 b n₂).1.id ∧
    getDownload s (createDownload s a n₁).1.id = none ∧
    idsBounded (createDownload s a n₁).2 := by
  refine ⟨?_, ?_, ?_⟩
  · simp [createDownload]
  · exact mapGet_eq_none_of_lt s.downloads s.currentDownloadId h
  · intro p hp
    simp only [createDownload] at hp
    rcases mem_mapSet _ _ _ _ hp with h' | h'
    · simp [createDownload, h']
    · simp only [createDownload]
      exact Nat.lt_succ_of_lt (h p h')

/-- Witness for C8 on the initial store. -/
theorem C8_ids_unique_monotone_witness :
    (createDownload MemStorage.init ⟨"u", "f", "q"⟩ 0).1.id <
      (createDownload (createDownload MemStorage.init ⟨"u", "f", "q"⟩ 0).2 ⟨"u", "f", "q"⟩ 1).1.id ∧
    getDownload MemStorage.init (createDownload MemStorage.init ⟨"u", "f", "q"⟩ 0).1.id = none ∧
    idsBounded (createDownload MemStorage.init ⟨"u", "f", "q"⟩ 0).2 :=
  C8_ids_unique_monotone MemStorage.init ⟨"u", "f", "q"⟩ ⟨"u", "f", "q"⟩ 0 1
    (by simp [idsBounded, MemStorage.init])

/-- The progress values carried by a sequence of frames, in order (frames
without a progress field, such as failure frames, contribute nothing). -/
def progressValues (fs : List Frame) : List Nat :=
  fs.filterMap Frame.progress

theorem filterMap_progress_progressFrame (evs : List ProgressEvent) :
    List.filterMap (Frame.progress ∘ progressFrame) evs =
      evs.map (fun e => downloadProgress e.downloaded e.total) := by
  induction evs with
  | nil => rfl
  | cons e rest ih => simp [progressFrame, ih, Function.comp]

/-- C3: In a successful run the broadcast frames are exactly: the initial
downloading frame at 0, one downloading frame per ytdl progress event whose
progress is `Math.round((downloaded / total) * 80)`, then the archiving
frame at the fixed value 90 and the completion frame at the fixed value
100; under the ytdl guarantees `downloaded ≤ total` and `total > 0` every
reported progress value lies in 0–100 (the lower bound holds since progress
is a natural number). -/
theorem C3_progress_formula (events : List ProgressEvent) (title sizeStr zipPath : String)
    (hwf : ∀ e ∈ events, e.downloaded ≤ e.total ∧ 0 < e.total) :
    broadcastTrace (.success events title sizeStr zipPath) =
      { status := "downloading", progress := some 0 } ::
        events.map (fun e =>
          { status := "downloading",
            progress := some (jsRound (e.downloaded * 80) e.total) }) ++
        [{ status := "creating_zip", progress := some 90 },
         { status := "completed", progress := some 100 }] ∧
    (∀ f ∈ broadcastTrace (.success events title sizeStr zipPath),
      ∀ p, f.progress = some p → p ≤ 100) := by
  constructor
  · rfl
  · intro f hf p hp
    simp only [broadcastTrace] at hf
    rcases List.mem_cons.mp hf with rfl | hf'
    · simp at hp
      omega
    rcases List.mem_append.mp hf' with hm | htail
    · obtain ⟨e, he, rfl⟩ := List.mem_map.mp hm
      simp [progressFrame] at hp
      have h80 := downloadProgress_le_80 e.downloaded e.total (hwf e he).1 (hwf e he).2
      omega
    · simp only [List.mem_cons, List.mem_singleton] at htail
      rcases htail with rfl | rfl | h
      · simp at hp
        omega
      · simp at hp
        omega
      · simp at h

/-- Witness for C3 on a run with one progress event (5 of 10 bytes). -/
theorem C3_progress_formula_witness :
    broadcastTrace (.success [⟨5, 10⟩] "t" "1 MB" "z.zip") =
      { status := "downloading", progress := some 0 } ::
        [(⟨5, 10⟩ : ProgressEvent)].map (fun e =>
          { status := "downloading",
            progress := some (jsRound (e.downloaded * 80) e.total) }) ++
        [{ status := "creating_zip", progress := some 90 },
         { status := "completed", progress := some 100 }] ∧
    (∀ f ∈ broadcastTrace (.success [⟨5, 10⟩] "t" "1 MB" "z.zip"),
      ∀ p, f.progress = some p → p ≤ 100) :=
  C3_progress_formula [⟨5, 10⟩] "t" "1 MB" "z.zip" (by decide)

/-- The ytdl progress events a run outcome carries. -/
def eventsOf : RunOutcome → List ProgressEvent
  | .notFound => []
  | .infoFailure _ => []
  | .writeFailure evs _ => evs
  | .zipFailure evs _ => evs
  | .cleanupFailure evs _ _ _ _ => evs
  | .success evs _ _ _ => evs

theorem chain_le_map_append (f : ProgressEvent → Nat) (evs : List ProgressEvent)
    (suffix : List Nat)
    (hb : ∀ e ∈ evs, f e ≤ 80)
    (hmono : List.Chain' (fun a b => f a ≤ f b) evs)
    (hs : List.Chain' (· ≤ ·) suffix)
    (hhead : ∀ y ∈ suffix.head?, 80 ≤ y) :
    List.Chain' (· ≤ ·) (evs.map f ++ suffix) := by
  induction evs with
  | nil => simpa using hs
  | cons e rest ih =>
    have hrest : List.Chain' (· ≤ ·) (rest.map f ++ suffix) :=
      ih (fun a ha => hb a (List.mem_cons_of_mem e ha)) hmono.tail
    rw [List.map_cons, List.cons_append, List.chain'_cons']
    refine ⟨?_, hrest⟩
    intro y hy
    cases rest with
    | nil =>
      simp only [List.map_nil, List.nil_append] at hy
      exact le_trans (hb e (by simp)) (hhead y hy)
    | cons r rs =>
      simp only [List.map_cons, List.cons_append, List.head?_cons, Option.mem_def,
        Option.some.injEq] at hy
      subst hy
      exact (List.chain'_cons.mp hmono).1

theorem progressValues_infoFailure (msg : String) :
    progressValues (broadcastTrace (.infoFailure msg)) = [0] := by
  simp [progressValues, broadcastTrace, failedFrame]

theorem progressValues_writeFailure (evs : List ProgressEvent) (msg : String) :
    progressValues (broadcastTrace (.writeFailure evs msg)) =
      0 :: evs.map (fun e => downloadProgress e.downloaded e.total) := by
  simp [progressValues, broadcastTrace, failedFrame, List.filterMap_append,
    filterMap_progress_progressFrame]

theorem progressValues_zipFailure (evs : List ProgressEvent) (msg : String) :
    progressValues (broadcastTrace (.zipFailure evs msg)) =
      0 :: evs.map (fun e => downloadProgress e.downloaded e.total) ++ [90] := by
  simp [progressValues, broadcastTrace, failedFrame, List.filterMap_append,
    filterMap_progress_progressFrame]

theorem progressValues_cleanupFailure (evs : List ProgressEvent)
    (title sizeStr zipPath msg : String) :
    progressValues (broadcastTrace (.cleanupFailure evs title sizeStr zipPath msg)) =
      0 :: evs.map (fun e => downloadProgress e.downloaded e.total) ++ [90, 100] := by
  simp [progressValues, broadcastTrace, failedFrame, List.filterMap_append,
    filterMap_progress_progressFrame]

theorem progressValues_success (evs : List ProgressEvent) (title sizeStr zipPath : String) :
    progressValues (broadcastTrace (.success evs title sizeStr zipPath)) =
      0 :: evs.map (fun e => downloadProgress e.downloaded e.total) ++ [90, 100] := by
  simp [progressValues, broadcastTrace, List.filterMap_append,
    filterMap_progress_progressFrame]

/-- C7: Under the ytdl stream guarantees (a fixed positive total, cumulative
downloaded bytes that never exceed the total and never decrease), the
progress values a run broadcasts are non-decreasing, and the progress
values successively held by the stored record (which starts at 0) are
non-decreasing as well, for every run outcome. -/
theorem C7_progress_nondecreasing (o : RunOutcome) (t : Nat) (ht : 0 < t)
    (htot : ∀ e ∈ eventsOf o, e.total = t)
    (hle : ∀ e ∈ eventsOf o, e.downloaded ≤ t)
    (hmono : List.Chain' (fun a b => a.downloaded ≤ b.downloaded) (eventsOf o))
    (d : Download) (hp : d.progress = 0) :
    List.Chain' (· ≤ ·) (progressValues (broadcastTrace o)) ∧
    List.Chain' (· ≤ ·) (storedProgressTrace d o) := by
  have key : ∀ evs : List ProgressEvent, (∀ e ∈ evs, e.total = t) →
      (∀ e ∈ evs, e.downloaded ≤ t) →
      List.Chain' (fun a b => a.downloaded ≤ b.downloaded) evs →
      ∀ suffix : List Nat, List.Chain' (· ≤ ·) suffix →
      (∀ y ∈ suffix.head?, 80 ≤ y) →
      List.Chain' (· ≤ ·)
        (0 :: evs.map (fun e => downloadProgress e.downloaded e.total) ++ suffix) := by
    intro evs htot' hle' hmono' suffix hs hhead
    rw [List.cons_append, List.chain'_cons']
    refine ⟨fun y _ => Nat.zero_le y, ?_⟩
    have hmap : evs.map (fun e => downloadProgress e.downloaded e.total) =
        evs.map (fun e => downloadProgress e.downloaded t) :=
      List.map_congr_left (fun e he => by rw [htot' e he])
    rw [hmap]
    refine chain_le_map_append _ evs suffix ?_ ?_ hs hhead
    · intro e he
      exact downloadProgress_le_80 e.downloaded t (hle' e he) ht
    · exact hmono'.imp (fun a b hab => downloadProgress_mono _ _ t hab)
  constructor
  · cases o with
    | notFound => simp [progressValues, broadcastTrace]
    | infoFailure msg =>
      rw [progressValues_infoFailure]
      exact List.chain'_singleton 0
    | writeFailure evs msg =>
      rw [progressValues_writeFailure]
      have := key evs htot hle hmono [] List.chain'_nil (by simp)
      simpa using this
    | zipFailure evs msg =>
      rw [progressValues_zipFailure]
      have := key evs htot hle hmono [90] (List.chain'_singleton 90) (by simp)
      simpa using this
    | cleanupFailure evs title sizeStr zipPath msg =>
      rw [progressValues_cleanupFailure]
      have := key evs htot hle hmono [90, 100] (by simp [List.chain'_cons]) (by simp)
      simpa using this
    | success evs title sizeStr zipPath =>
      rw [progressValues_success]
      have := key evs htot hle hmono [90, 100] (by simp [List.chain'_cons]) (by simp)
      simpa using this
  · cases o with
    | notFound => simp [storedProgressTrace, recordTrace, processUpdates]
    | infoFailure msg =>
      simp [storedProgressTrace, recordTrace, processUpdates, downloadingUpdate,
        failedUpdate, applyUpdate, hp, List.chain'_cons]
    | writeFailure evs msg =>
      simp [storedProgressTrace, recordTrace, processUpdates, downloadingUpdate,
        failedUpdate, applyUpdate, hp, List.chain'_cons]
    | zipFailure evs msg =>
      simp [storedProgressTrace, recordTrace, processUpdates, downloadingUpdate,
        failedUpdate, applyUpdate, hp, List.chain'_cons]
    | cleanupFailure evs title sizeStr zipPath msg =>
      simp [storedProgressTrace, recordTrace, processUpdates, downloadingUpdate,
        completedUpdate, failedUpdate, applyUpdate, hp, List.chain'_cons]
    | success evs title sizeStr zipPath =>
      simp [storedProgressTrace, recordTrace, processUpdates, downloadingUpdate,
        completedUpdate, applyUpdate, hp, List.chain'_cons]

/-- Witness for C7 on a successful run with two monotone progress events. -/
theorem C7_progress_nondecreasing_witness :
    List.Chain' (· ≤ ·)
      (progressValues (broadcastTrace (.success [⟨5, 10⟩, ⟨10, 10⟩] "t" "1 MB" "z.zip"))) ∧
    List.Chain' (· ≤ ·)
      (storedProgressTrace
        (createDownload MemStorage.init ⟨"https://youtu.be/abc", "mp3", "best"⟩ 0).1
        (.success [⟨5, 10⟩, ⟨10, 10⟩] "t" "1 MB" "z.zip")) :=
  C7_progress_nondecreasing (.success [⟨5, 10⟩, ⟨10, 10⟩] "t" "1 MB" "z.zip") 10
    (by decide) (by decide) (by decide) (by simp [eventsOf, List.chain'_cons])
    (createDownload MemStorage.init ⟨"https://youtu.be/abc", "mp3", "best"⟩ 0).1
    (by decide)

theorem statuses_map_progressFrame (evs : List ProgressEvent) :
    evs.map (Frame.status ∘ progressFrame) = List.replicate evs.length "downloading" := by
  induction evs with
  | nil => rfl
  | cons e rest ih => simp [progressFrame, Function.comp, ih, List.replicate_succ]

theorem chain_downloading_const (n : Nat) (suffix : List String)
    (hs : List.Chain' (fun a b => statusAdvances a b = true) ("downloading" :: suffix)) :
    List.Chain' (fun a b => statusAdvances a b = true)
      (("downloading" :: List.replicate n "downloading") ++ suffix) := by
  induction n with
  | zero => simpa using hs
  | succ k ih =>
    rw [List.replicate_succ, List.cons_append, List.cons_append, List.chain'_cons]
    refine ⟨by decide, ?_⟩
    rw [List.cons_append] at ih
    exact ih

/-- C1 counterexample, two parts.  (i) In a successful run the stored job
record reaches "completed" without ever holding the status "creating_zip":
that status is only broadcast over the push channel
(`src/unnamed/part_000:176`), never written to the store.  (ii) When the
finish handler's cleanup throws after the completed update (`fs.rmSync` at
line 196, whose error reaches the catch at line 198), the stored sequence
is pending → downloading → completed → failed: "failed" is entered from the
terminal status "completed", not only from non-terminal states. -/
theorem C1_counterexample :
    ("creating_zip" ∉
      storedStatusTrace
        (createDownload MemStorage.init ⟨"https://youtu.be/abc", "mp3", "best"⟩ 0).1
        (.success [] "video" "1 MB" "downloads/video_1.zip") ∧
    "completed" ∈
      storedStatusTrace
        (createDownload MemStorage.init ⟨"https://youtu.be/abc", "mp3", "best"⟩ 0).1
        (.success [] "video" "1 MB" "downloads/video_1.zip")) ∧
    storedStatusTrace
      (createDownload MemStorage.init ⟨"https://youtu.be/abc", "mp3", "best"⟩ 0).1
      (.cleanupFailure [] "video" "1 MB" "downloads/video_1.zip" "EACCES") =
      ["pending", "downloading", "completed", "failed"] := by
  decide

/-- C1 amended: for every run outcome, both the stored status sequence
(starting from the created "pending" record) and the broadcast status
sequence never regress along pending → downloading → creating_zip →
completed, and "failed" — which is terminal — is reachable from any
non-failed status: usually from a non-terminal one, but also from
"completed" when the finish handler's cleanup (`fs.rmSync`,
`src/unnamed/part_000:196`) throws after the completed update.  Moreover
the stored record never passes through "creating_zip": that status appears
only in broadcast frames, and the stored record moves
pending → downloading → completed (→ failed on cleanup failure). -/
theorem C1_amended (d : Download) (h : d.status = "pending") (o : RunOutcome) :
    List.Chain' (fun a b => statusAdvances a b = true) (storedStatusTrace d o) ∧
    List.Chain' (fun a b => statusAdvances a b = true)
      ((broadcastTrace o).map Frame.status) ∧
    "creating_zip" ∉ storedStatusTrace d o := by
  refine ⟨?_, ?_, ?_⟩
  · cases o with
    | notFound =>
      simp [storedStatusTrace, recordTrace, processUpdates, h]
    | infoFailure msg =>
      simp [storedStatusTrace, recordTrace, processUpdates, downloadingUpdate,
        failedUpdate, applyUpdate, h, List.chain'_cons, statusAdvances, statusRank]
    | writeFailure evs msg =>
      simp [storedStatusTrace, recordTrace, processUpdates, downloadingUpdate,
        failedUpdate, applyUpdate, h, List.chain'_cons, statusAdvances, statusRank]
    | zipFailure evs msg =>
      simp [storedStatusTrace, recordTrace, processUpdates, downloadingUpdate,
        failedUpdate, applyUpdate, h, List.chain'_cons, statusAdvances, statusRank]
    | cleanupFailure evs title sizeStr zipPath msg =>
      simp [storedStatusTrace, recordTrace, processUpdates, downloadingUpdate,
        completedUpdate, failedUpdate, applyUpdate, h, List.chain'_cons,
        statusAdvances, statusRank]
    | success evs title sizeStr zipPath =>
      simp [storedStatusTrace, recordTrace, processUpdates, downloadingUpdate,
        completedUpdate, applyUpdate, h, List.chain'_cons, statusAdvances, statusRank]
  · cases o with
    | notFound => simp [broadcastTrace]
    | infoFailure msg =>
      simp [broadcastTrace, failedFrame, List.chain'_cons, statusAdvances]
    | writeFailure evs msg =>
      have := chain_downloading_const evs.length ["failed"]
        (List.chain'_cons.mpr ⟨by decide, List.chain'_singleton _⟩)
      simpa [broadcastTrace, failedFrame, statuses_map_progressFrame] using this
    | zipFailure evs msg =>
      have := chain_downloading_const evs.length ["creating_zip", "failed"]
        (List.chain'_cons.mpr ⟨by decide,
          List.chain'_cons.mpr ⟨by decide, List.chain'_singleton _⟩⟩)
      simpa [broadcastTrace, failedFrame, statuses_map_progressFrame] using this
    | cleanupFailure evs title sizeStr zipPath msg =>
      have := chain_downloading_const evs.length ["creating_zip", "completed", "failed"]
        (List.chain'_cons.mpr ⟨by decide,
          List.chain'_cons.mpr ⟨by decide,
            List.chain'_cons.mpr ⟨by decide, List.chain'_singleton _⟩⟩⟩)
      simpa [broadcastTrace, failedFrame, statuses_map_progressFrame] using this
    | success evs title sizeStr zipPath =>
      have := chain_downloading_const evs.length ["creating_zip", "completed"]
        (List.chain'_cons.mpr ⟨by decide,
          List.chain'_cons.mpr ⟨by decide, List.chain'_singleton _⟩⟩)
      simpa [broadcastTrace, statuses_map_progressFrame] using this
  · cases o with
    | notFound =>
      simp [storedStatusTrace, recordTrace, processUpdates, h]
    | infoFailure msg =>
      simp [storedStatusTrace, recordTrace, processUpdates, downloadingUpdate,
        failedUpdate, applyUpdate, h]
    | writeFailure evs msg =>
      simp [storedStatusTrace, recordTrace, processUpdates, downloadingUpdate,
        failedUpdate, applyUpdate, h]
    | zipFailure evs msg =>
      simp [storedStatusTrace, recordTrace, processUpdates, downloadingUpdate,
        failedUpdate, applyUpdate, h]
    | cleanupFailure evs title sizeStr zipPath msg =>
      simp [storedStatusTrace, recordTrace, processUpdates, downloadingUpdate,
        completedUpdate, failedUpdate, applyUpdate, h]
    | success evs title sizeStr zipPath =>
      simp [storedStatusTrace, recordTrace, processUpdates, downloadingUpdate,
        completedUpdate, applyUpdate, h]

/-- Witness for the amended C1 on a concrete run whose cleanup fails after
the completed update. -/
theorem C1_amended_witness :
    List.Chain' (fun a b => statusAdvances a b = true)
      (storedStatusTrace
        (createDownload MemStorage.init ⟨"https://youtu.be/abc", "mp3", "best"⟩ 0).1
        (.cleanupFailure [⟨5, 10⟩] "video" "1 MB" "downloads/video_1.zip" "EACCES")) ∧
    List.Chain' (fun a b => statusAdvances a b = true)
      ((broadcastTrace
        (.cleanupFailure [⟨5, 10⟩] "video" "1 MB" "downloads/video_1.zip" "EACCES")).map
        Frame.status) ∧
    "creating_zip" ∉
      storedStatusTrace
        (createDownload MemStorage.init ⟨"https://youtu.be/abc", "mp3", "best"⟩ 0).1
        (.cleanupFailure [⟨5, 10⟩] "video" "1 MB" "downloads/video_1.zip" "EACCES") :=
  C1_amended (createDownload MemStorage.init ⟨"https://youtu.be/abc", "mp3", "best"⟩ 0).1
    (by decide) (.cleanupFailure [⟨5, 10⟩] "video" "1 MB" "downloads/video_1.zip" "EACCES")

/-- C6 counterexample: with the completed job's archive on disk, two requests
at times 0 ms and 1000 ms both stream the archive bytes, and after both the
file is still on disk (its deletions are only scheduled, 5000 ms after each
stream end) — so the archive is not returned exactly once before deletion. -/
theorem C6_counterexample :
    (serveZipRequests completedStore 1 ⟨true, []⟩ [0, 1000]).map ZipResponse.streams =
      [true, true] ∧
    (serveZipAt completedStore 1 (serveZipAt completedStore 1 ⟨true, []⟩ 0).2 1000).2.fileOnDisk =
      true := by
  decide

/-- C6 amended: after a job completes (status "completed" with a non-falsy
recorded zip path) and while the archive is on disk, a request at `t₁`
streams the archive bytes and schedules deletion at `t₁ + 5000` ms; once
that delay has elapsed, the file has been unlinked and any request at
`t₂ ≥ t₁ + 5000` gets a 404 "File not found" — but requests arriving before
the scheduled deletion may stream the bytes again, so "exactly once" holds
only relative to the deletion, not absolutely. -/
theorem C6_amended (s : MemStorage) (id : Nat) (d : Download) (zp : String) (t₁ t₂ : Nat)
    (hd : getDownload s id = some d) (hst : d.status = "completed")
    (hzp : d.zipPath = some zp) (hfal : falsyStr d.zipPath = false)
    (ht : t₁ + deletionDelayMs ≤ t₂) :
    (serveZipAt s id ⟨true, []⟩ t₁).1.streams = true ∧
    (serveZipAt s id ⟨true, []⟩ t₁).2 = ⟨true, [t₁ + deletionDelayMs]⟩ ∧
    (serveZipAt s id (serveZipAt s id ⟨true, []⟩ t₁).2 t₂).1 =
      .fileMissing "File not found" ∧
    (serveZipAt s id (serveZipAt s id ⟨true, []⟩ t₁).2 t₂).2.fileOnDisk = false := by
  have hroute : getZipRoute s (fun _ => true) id =
      .stream zp (orElseStr d.fileName "download.zip" ++ ".zip") := by
    simp only [getZipRoute, hd]
    rw [if_neg (by simp [hst, hfal]), hzp]
    simp
  have hroute2 : getZipRoute s (fun _ => false) id = .fileMissing "File not found" := by
    simp only [getZipRoute, hd]
    rw [if_neg (by simp [hst, hfal]), hzp]
    simp
  have hfire1 : fireTimers ⟨true, []⟩ t₁ = ⟨true, []⟩ := by
    simp [fireTimers]
  have h1 : serveZipAt s id ⟨true, []⟩ t₁ =
      (.stream zp (orElseStr d.fileName "download.zip" ++ ".zip"),
        ⟨true, [t₁ + deletionDelayMs]⟩) := by
    simp only [serveZipAt, hfire1]
    rw [hroute]
    simp
  have hnot : ¬ t₂ < t₁ + deletionDelayMs := by omega
  have hfire2 : fireTimers ⟨true, [t₁ + deletionDelayMs]⟩ t₂ = ⟨false, []⟩ := by
    simp [fireTimers, hnot]
  have h2 : serveZipAt s id ⟨true, [t₁ + deletionDelayMs]⟩ t₂ =
      (.fileMissing "File not found", ⟨false, []⟩) := by
    simp only [serveZipAt, hfire2]
    rw [hroute2]
  refine ⟨by simp [h1, ZipResponse.streams], by simp [h1], by simp [h1, h2], by simp [h1, h2]⟩

/-- Witness for the amended C6 at requests 5000 ms apart. -/
theorem C6_amended_witness :
    (serveZipAt completedStore 1 ⟨true, []⟩ 0).1.streams = true ∧
    (serveZipAt completedStore 1 ⟨true, []⟩ 0).2 = ⟨true, [0 + deletionDelayMs]⟩ ∧
    (serveZipAt completedStore 1 (serveZipAt completedStore 1 ⟨true, []⟩ 0).2 5000).1 =
      .fileMissing "File not found" ∧
    (serveZipAt completedStore 1 (serveZipAt completedStore 1 ⟨true, []⟩ 0).2 5000).2.fileOnDisk =
      false :=
  C6_amended completedStore 1 completedZip "downloads/video_1.zip" 0 5000
    (by decide) (by decide) (by decide) (by decide) (by decide)
